import Mathlib

/-!
Verification of the Morrowind BAIN-support installer extension (src/index.js).

Paths are modelled as lists of characters (`PathEntry`), mirroring the JS strings
the code manipulates.  JS string primitives used by the source
(`endsWith`, `startsWith`, `indexOf`, `lastIndexOf`, regex test, and the two
Node `path` helpers `basename` and `relative`) are modelled below; the
extension's own functions are then direct translations of src/index.js.

The host's dialog interaction is modelled by a function from the dialog
request to a `DialogOutcome`: either a response (action plus the checkbox
value map, kept as an ordered association list exactly as `Object.entries`
exposes it) or a rejection of the dialog capability itself.  Thrown
`UserCanceled` errors and host rejections become the `Except` error channel;
`installContent` is a total Lean function, which models the fact that the
JS function always resolves (its only `try` swallows every dialog error).
-/

/-- A path entry inside the archive listing: modelled as its list of
characters. -/
abbrev PathEntry := List Char

/-- The directory-separator character (`path.sep`).  The source uses it only
through the string primitives modelled here; the spec assumes a single
separator character used consistently. -/
def sep : Char := '/'

/-- JS `\d` inside the BAIN regex: an ASCII digit. -/
def isAsciiDigit (c : Char) : Bool :=
  ('0' ≤ c) && (c ≤ '9')

/-- JS `\s`: the ECMAScript whitespace class (space, tab, line terminators,
and the Unicode space separators). -/
def isJsWhitespace (c : Char) : Bool :=
  c == ' ' || c == '\t' || c == '\n' || c == '\x0b' || c == '\x0c' ||
  c == '\r' || c == ' ' || c == ' ' ||
  ((0x2000 ≤ c.toNat) && (c.toNat ≤ 0x200a)) ||
  c == ' ' || c == ' ' || c == ' ' || c == ' ' ||
  c == '　' || c == '﻿'

/-- JS `file.endsWith(path.sep)` for the one-character separator: the last
character equals `c`. -/
def endsWith (f : PathEntry) (c : Char) : Bool :=
  match f.reverse with
  | [] => false
  | a :: _ => a == c

/-- JS `file.startsWith(folder)`: `p` is a leading run of `f`. -/
def startsWith : PathEntry → PathEntry → Bool
  | _, [] => true
  | [], _ :: _ => false
  | a :: as, b :: bs => (a == b) && startsWith as bs

/-- JS `file.indexOf(c)`: index of the first occurrence, `-1` if absent. -/
def jsIndexOf (c : Char) : PathEntry → Int
  | [] => -1
  | a :: as =>
    if a = c then 0
    else if jsIndexOf c as = -1 then -1 else jsIndexOf c as + 1

/-- JS `file.lastIndexOf(c)`: index of the last occurrence, `-1` if absent. -/
def jsLastIndexOf (c : Char) : PathEntry → Int
  | [] => -1
  | a :: as =>
    if jsLastIndexOf c as = -1 then (if a = c then 0 else -1)
    else jsLastIndexOf c as + 1

/-- Node `path.basename`: trailing separators are stripped, then the portion
after the last remaining separator is returned. -/
def basename (f : PathEntry) : PathEntry :=
  ((f.reverse.dropWhile (fun c => c == sep)).takeWhile (fun c => !(c == sep))).reverse

/-- Node `path.relative(base, file)` for the shapes this extension feeds it:
`base` is a top-level directory entry (ending in the separator) that is a
leading run of `file`, so the relative path is `file` with that leading run
removed. -/
def pathRelative (base file : PathEntry) : PathEntry :=
  file.drop base.length

/-- Renders a list of paths for a log message (`array.join(', ')`). -/
def joinPaths (ps : List PathEntry) : String :=
  String.mk (List.intercalate (", ".data) ps)

/-- `List.map` with the element index, as JS `array.map((x, i) => ...)`;
`n` is the index of the first element. -/
def mapWithIndexFrom (f : Nat → α → β) : Nat → List α → List β
  | _, [] => []
  | n, a :: as => f n a :: mapWithIndexFrom f (n + 1) as

/- === The extension itself (src/index.js) === -/

/-- `GAME_ID`: Nexus Mods domain for the game. -/
def GAME_ID : String := "morrowind"

/-- `BAIN_FOLDER_PATTERN.test(file)` for the regex `/^\d{2}\s/`: the first
two characters are ASCII digits and the third is whitespace. -/
def patternTest : PathEntry → Bool
  | c1 :: c2 :: c3 :: _ => isAsciiDigit c1 && isAsciiDigit c2 && isJsWhitespace c3
  | _ => false

/-- `isDirectory(file)`: the path ends with the separator. -/
def isDirectory (file : PathEntry) : Bool :=
  endsWith file sep

/-- `isFile(file)`: the path does not end with the separator. -/
def isFile (file : PathEntry) : Bool :=
  !(endsWith file sep)

/-- `isTopLevel(file)`: the first separator index equals the last one. -/
def isTopLevel (file : PathEntry) : Bool :=
  jsIndexOf sep file == jsLastIndexOf sep file

/-- `isTopLevelDirectory(file)`: a directory that is top-level. -/
def isTopLevelDirectory (file : PathEntry) : Bool :=
  isDirectory file && isTopLevel file

/-- `isFileInSelectedFolder(file, selectedFolders)`: the path starts with one
of the selected folders. -/
def isFileInSelectedFolder (file : PathEntry) (selectedFolders : List PathEntry) : Bool :=
  selectedFolders.any (fun folder => startsWith file folder)

/-- `getRelativePath(file, selectedFolders)`: `path.relative` of the first
selected folder the file starts with.  When no folder matches, the JS code
would pass `undefined` to `path.relative` and throw; `installContent` only
calls this on files that passed `isFileInSelectedFolder`, so that branch is
unreachable there and is modelled by the empty path. -/
def getRelativePath (file : PathEntry) (selectedFolders : List PathEntry) : PathEntry :=
  match selectedFolders.find? (fun folder => startsWith file folder) with
  | some bainFolder => pathRelative bainFolder file
  | none => []

/-- `getBainFolders(files)`: top-level directories matching the BAIN
pattern. -/
def getBainFolders (files : List PathEntry) : List PathEntry :=
  files.filter (fun file => isTopLevelDirectory file && patternTest file)

/-- The object `testSupportedContent` resolves with. -/
structure SupportResult where
  supported : Bool
  requiredFiles : List PathEntry
  deriving DecidableEq

/-- `testSupportedContent(files, gameId)`; the JS function always resolves,
so it is modelled as a total function returning the resolved value. -/
def testSupportedContent (files : List PathEntry) (gameId : String) : SupportResult :=
  { supported := (gameId == GAME_ID) && decide ((getBainFolders files).length > 0),
    requiredFiles := [] }

/-- One checkbox of the dialog request (`{ id, text, value }`). -/
structure Checkbox where
  id : PathEntry
  text : PathEntry
  value : Bool
  deriving DecidableEq

/-- One action button of the dialog request; the JS `Cancel` action omits the
default flag, which reads back as false. -/
structure DialogAction where
  label : String
  isDefault : Bool
  deriving DecidableEq

/-- The request `showFolderSelectionDialog` passes to
`context.api.showDialog`. -/
structure DialogRequest where
  kind : String
  title : String
  text : String
  checkboxes : List Checkbox
  actions : List DialogAction
  deriving DecidableEq

/-- The host's dialog result: the chosen action and `result.input`, the
checkbox id/value map in the order the host returned it. -/
structure DialogResult where
  action : String
  input : List (PathEntry × Bool)
  deriving DecidableEq

/-- What awaiting `context.api.showDialog` can do: resolve with a result, or
reject (host interaction failure). -/
inductive DialogOutcome where
  | response (result : DialogResult)
  | failure (message : String)

/-- Errors thrown out of the dialog step: the deliberately raised
`util.UserCanceled`, or a rejection of the dialog capability itself. -/
inductive InstallError where
  | userCanceled (message : String)
  | hostFailure (message : String)
  deriving DecidableEq

/-- `error.message` as read by the catch block's log call. -/
def InstallError.message : InstallError → String
  | InstallError.userCanceled m => m
  | InstallError.hostFailure m => m

/-- The request built by `showFolderSelectionDialog(bainFolders, context)`:
one checkbox per BAIN folder (id = folder, text = its basename, first one
ticked), and the `Cancel` / `Continue` actions. -/
def showFolderSelectionDialogRequest (bainFolders : List PathEntry) : DialogRequest :=
  { kind := "question",
    title := "Choose BAIN Options",
    text := "Choose the folders you want to install:",
    checkboxes := mapWithIndexFrom
      (fun index folder => { id := folder, text := basename folder, value := index == 0 })
      0 bainFolders,
    actions := [{ label := "Cancel", isDefault := false },
                { label := "Continue", isDefault := true }] }

/-- The rest of `showFolderSelectionDialog` once the awaited dialog outcome
is at hand: a rejection propagates; otherwise `UserCanceled` is thrown when
the user canceled or ticked nothing, else the ticked folder ids are
returned. -/
def showFolderSelectionDialog (bainFolders : List PathEntry) (outcome : DialogOutcome) :
    Except InstallError (List PathEntry) :=
  match outcome with
  | DialogOutcome.failure msg => Except.error (InstallError.hostFailure msg)
  | DialogOutcome.response result =>
    if result.action == "Cancel" || !((result.input.map (fun kv => kv.2)).any (fun v => v)) then
      Except.error (InstallError.userCanceled ("No folders selected or action canceled."))
    else
      Except.ok ((result.input.filter (fun kv => kv.2)).map (fun kv => kv.1))

/-- One generated instruction (`{ type: 'copy', source, destination }`). -/
structure Instruction where
  type : String
  source : PathEntry
  destination : PathEntry
  deriving DecidableEq

/-- What `installContent` returns: the bare `[]` of the catch block, or the
`{ instructions }` object. -/
inductive InstallOutput where
  | aborted
  | withInstructions (instructions : List Instruction)
  deriving DecidableEq

/-- One `log(level, message)` call. -/
abbrev LogEntry := String × String

/-- `installContent(files, context)`, with the host's dialog behaviour
abstracted as `respond`.  Returns the result together with the log calls
made.  The final debug log's JSON rendering of the instructions is not
reproduced; no claim concerns debug-log text. -/
def installContent (files : List PathEntry) (respond : DialogRequest → DialogOutcome) :
    InstallOutput × List LogEntry :=
  let bainFolders := getBainFolders files
  let dbg1 : LogEntry := ("debug", "BAIN folders: " ++ joinPaths bainFolders)
  match showFolderSelectionDialog bainFolders
      (respond (showFolderSelectionDialogRequest bainFolders)) with
  | Except.error e =>
    (InstallOutput.aborted, [dbg1, ("error", "Dialog error: " ++ e.message)])
  | Except.ok selectedFolders =>
    let dbg2 : LogEntry := ("debug", "Selected folders: " ++ joinPaths selectedFolders)
    let filtered := files.filter (fun file =>
      isFile file && isFileInSelectedFolder file selectedFolders)
    let dbg3 : LogEntry := ("debug", "Filtered files: " ++ joinPaths filtered)
    let instructions := filtered.map (fun file =>
      { type := "copy", source := file,
        destination := getRelativePath file selectedFolders : Instruction })
    (InstallOutput.withInstructions instructions,
     [dbg1, dbg2, dbg3, ("debug", "Generated instructions")])

/- === Definitions taken from the spec's wording (for refinement claims) === -/

/-- Spec §4.2 phrasing of `isTopLevel`: "the entry has no separator before
its final character". -/
def noSepBeforeFinal (f : PathEntry) : Bool :=
  !(decide (sep ∈ f.dropLast))

/-- Spec §4.2 `isBainFolder`: directory, top-level, and the basename matches
the BAIN pattern. -/
def bainFolderSpec (entry : PathEntry) : Bool :=
  isDirectory entry && (isTopLevel entry && patternTest (basename entry))

/- === Helper lemmas === -/

/-- `startsWith` agrees with leading-run decomposition. -/
theorem startsWith_iff (f p : PathEntry) : startsWith f p = true ↔ ∃ t, f = p ++ t := by
  induction p generalizing f with
  | nil =>
    simp [startsWith]
  | cons b bs ih =>
    cases f with
    | nil =>
      simp [startsWith]
    | cons a as =>
      rw [startsWith]
      simp only [Bool.and_eq_true, beq_iff_eq, ih]
      constructor
      · rintro ⟨rfl, t, rfl⟩
        exact ⟨t, rfl⟩
      · rintro ⟨t, ht⟩
        rw [List.cons_append] at ht
        injection ht with hab htl
        exact ⟨hab, t, htl⟩

/-- `jsIndexOf` never goes below `-1`. -/
theorem jsIndexOf_ge (c : Char) (f : PathEntry) : -1 ≤ jsIndexOf c f := by
  induction f with
  | nil => simp [jsIndexOf]
  | cons a as ih =>
    rw [jsIndexOf]
    split
    · omega
    · split
      · omega
      · omega

/-- `jsLastIndexOf` never goes below `-1`. -/
theorem jsLastIndexOf_ge (c : Char) (f : PathEntry) : -1 ≤ jsLastIndexOf c f := by
  induction f with
  | nil => simp [jsLastIndexOf]
  | cons a as ih =>
    rw [jsLastIndexOf]
    split
    · split
      · omega
      · omega
    · omega

/-- `jsIndexOf` is `-1` exactly on absence. -/
theorem jsIndexOf_eq_neg_one (c : Char) (f : PathEntry) :
    jsIndexOf c f = -1 ↔ c ∉ f := by
  induction f with
  | nil => simp [jsIndexOf]
  | cons a as ih =>
    rw [jsIndexOf]
    by_cases hac : a = c
    · subst hac
      simp
    · rw [if_neg hac]
      by_cases h2 : jsIndexOf c as = -1
      · rw [if_pos h2]
        simp [List.mem_cons, ih.mp h2, Ne.symm hac]
      · rw [if_neg h2]
        have hge := jsIndexOf_ge c as
        constructor
        · intro h
          omega
        · intro h
          exact absurd (ih.mpr (fun hm => h (List.mem_cons_of_mem a hm))) h2

/-- `jsLastIndexOf` is `-1` exactly on absence. -/
theorem jsLastIndexOf_eq_neg_one (c : Char) (f : PathEntry) :
    jsLastIndexOf c f = -1 ↔ c ∉ f := by
  induction f with
  | nil => simp [jsLastIndexOf]
  | cons a as ih =>
    rw [jsLastIndexOf]
    by_cases h2 : jsLastIndexOf c as = -1
    · rw [if_pos h2]
      by_cases hac : a = c
      · subst hac
        simp
      · rw [if_neg hac]
        simp [List.mem_cons, ih.mp h2, Ne.symm hac]
    · rw [if_neg h2]
      have hge := jsLastIndexOf_ge c as
      constructor
      · intro h
        omega
      · intro h
        exact absurd (ih.mpr (fun hm => h (List.mem_cons_of_mem a hm))) h2

/-- With at most one occurrence, first and last index coincide. -/
theorem jsIndexOf_eq_of_count_le_one (c : Char) (f : PathEntry)
    (h : f.count c ≤ 1) : jsIndexOf c f = jsLastIndexOf c f := by
  induction f with
  | nil => rfl
  | cons a as ih =>
    rw [jsIndexOf, jsLastIndexOf]
    by_cases hac : a = c
    · subst hac
      have hcs := List.count_cons_self a as
      have hcnt : List.count a as = 0 := by omega
      have hmem : a ∉ as := List.count_eq_zero.mp hcnt
      have h1 : jsIndexOf a as = -1 := (jsIndexOf_eq_neg_one a as).mpr hmem
      have h2 : jsLastIndexOf a as = -1 := (jsLastIndexOf_eq_neg_one a as).mpr hmem
      simp [h1, h2]
    · have hle : List.count c as ≤ 1 := by
        rwa [List.count_cons_of_ne (Ne.symm hac)] at h
      rw [if_neg hac, ih hle]
      by_cases hr : jsLastIndexOf c as = -1
      · rw [if_pos hr, if_pos hr, if_neg hac]
      · rw [if_neg hr, if_neg hr]

/-- With at least two occurrences, the first index is strictly before the
last. -/
theorem jsIndexOf_lt_of_two_le (c : Char) (f : PathEntry)
    (h : 2 ≤ f.count c) : jsIndexOf c f < jsLastIndexOf c f := by
  induction f with
  | nil => simp [List.count_nil] at h
  | cons a as ih =>
    rw [jsIndexOf, jsLastIndexOf]
    by_cases hac : a = c
    · subst hac
      have hcs := List.count_cons_self a as
      have hmem : a ∈ as := List.count_pos_iff.mp (by omega)
      have h2 : ¬ jsLastIndexOf a as = -1 := fun hh =>
        ((jsLastIndexOf_eq_neg_one a as).mp hh) hmem
      have hge := jsLastIndexOf_ge a as
      rw [if_pos rfl, if_neg h2]
      omega
    · have hcnt : 2 ≤ List.count c as := by
        rwa [List.count_cons_of_ne (Ne.symm hac)] at h
      have hlt := ih hcnt
      have hmem : c ∈ as := List.count_pos_iff.mp (by omega)
      have h1 : ¬ jsIndexOf c as = -1 := fun hh =>
        ((jsIndexOf_eq_neg_one c as).mp hh) hmem
      have h2 : ¬ jsLastIndexOf c as = -1 := fun hh =>
        ((jsLastIndexOf_eq_neg_one c as).mp hh) hmem
      rw [if_neg hac, if_neg h1, if_neg h2]
      omega

/-- The code's `isTopLevel` counts separator occurrences: true exactly when
there is at most one. -/
theorem isTopLevel_iff_count (f : PathEntry) :
    isTopLevel f = true ↔ f.count sep ≤ 1 := by
  rw [isTopLevel, beq_iff_eq]
  constructor
  · intro h
    by_contra hc
    push_neg at hc
    exact absurd h (ne_of_lt (jsIndexOf_lt_of_two_le sep f (by omega)))
  · exact jsIndexOf_eq_of_count_le_one sep f

/-- `endsWith` agrees with trailing-character decomposition. -/
theorem endsWith_iff (f : PathEntry) (c : Char) :
    endsWith f c = true ↔ ∃ b, f = b ++ [c] := by
  rw [endsWith]
  cases hr : f.reverse with
  | nil =>
    have hf : f = [] := by
      have := congrArg List.reverse hr
      simpa using this
    subst hf
    simp
  | cons a r =>
    have hf : f = r.reverse ++ [a] := by
      have := congrArg List.reverse hr
      simpa using this
    simp only [beq_iff_eq]
    constructor
    · rintro rfl
      exact ⟨r.reverse, hf⟩
    · rintro ⟨b, rfl⟩
      rw [List.reverse_append] at hr
      simp only [List.reverse_cons, List.reverse_nil, List.nil_append,
        List.singleton_append] at hr
      injection hr with h1 _
      exact h1.symm

/-- A top-level directory is a separator-free name followed by the trailing
separator. -/
theorem topLevelDirectory_shape (d : PathEntry) (h : isTopLevelDirectory d = true) :
    ∃ b, d = b ++ [sep] ∧ sep ∉ b := by
  rw [isTopLevelDirectory, Bool.and_eq_true] at h
  obtain ⟨hdir, htop⟩ := h
  rw [isDirectory] at hdir
  obtain ⟨b, rfl⟩ := (endsWith_iff d sep).mp hdir
  refine ⟨b, rfl, ?_⟩
  have hcount := (isTopLevel_iff_count _).mp htop
  rw [List.count_append] at hcount
  have hone : List.count sep [sep] = 1 := by simp
  exact List.count_eq_zero.mp (by omega)

/-- `dropWhile` is the identity when the predicate fails everywhere. -/
theorem dropWhile_eq_self_of (p : α → Bool) (l : List α)
    (h : ∀ a ∈ l, p a = false) : l.dropWhile p = l := by
  cases l with
  | nil => rfl
  | cons a as =>
    rw [List.dropWhile_cons, if_neg]
    rw [h a (List.mem_cons_self a as)]
    simp

/-- `takeWhile` is the identity when the predicate holds everywhere. -/
theorem takeWhile_eq_self_of (p : α → Bool) (l : List α)
    (h : ∀ a ∈ l, p a = true) : l.takeWhile p = l := by
  induction l with
  | nil => rfl
  | cons a as ih =>
    rw [List.takeWhile_cons, if_pos (h a (List.mem_cons_self a as))]
    rw [ih (fun x hx => h x (List.mem_cons_of_mem a hx))]

/-- `basename` of a top-level directory entry is its separator-free name. -/
theorem basename_append_sep (b : PathEntry) (h : sep ∉ b) :
    basename (b ++ [sep]) = b := by
  have hrev : ∀ a ∈ b.reverse, (a == sep) = false := by
    intro a ha
    have : a ∈ b := List.mem_reverse.mp ha
    simp only [beq_eq_false_iff_ne, ne_eq]
    exact fun hh => h (hh ▸ this)
  rw [basename, List.reverse_append]
  simp only [List.reverse_cons, List.reverse_nil, List.nil_append,
    List.singleton_append, List.dropWhile_cons]
  rw [if_pos (by simp)]
  rw [dropWhile_eq_self_of _ _ hrev]
  rw [takeWhile_eq_self_of _ _ (fun a ha => by rw [hrev a ha]; rfl)]
  exact List.reverse_reverse b

/-- Appending the trailing separator does not change the BAIN regex test:
the separator is not JS whitespace, so a two-character name still fails. -/
theorem patternTest_append_sep (b : PathEntry) :
    patternTest (b ++ [sep]) = patternTest b :=
  match b with
  | [] => rfl
  | [_] => rfl
  | [c1, c2] => by
    have hw : isJsWhitespace sep = false := by decide
    show (isAsciiDigit c1 && isAsciiDigit c2 && isJsWhitespace sep) = false
    rw [hw, Bool.and_false]
  | _ :: _ :: _ :: _ => rfl

/-- The code's per-entry BAIN test (full-path regex) coincides with the
spec's (regex on the basename). -/
theorem bainPred_eq (f : PathEntry) :
    (isTopLevelDirectory f && patternTest f) = bainFolderSpec f := by
  rw [bainFolderSpec]
  by_cases hd : isDirectory f = true
  · by_cases ht : isTopLevel f = true
    · have hts : isTopLevelDirectory f = true := by
        rw [isTopLevelDirectory, hd, ht]
        rfl
      obtain ⟨b, hfb, hb⟩ := topLevelDirectory_shape f hts
      subst hfb
      rw [hts, hd, ht, basename_append_sep b hb, patternTest_append_sep b]
      simp
    · rw [Bool.not_eq_true] at ht
      rw [isTopLevelDirectory, ht]
      simp
  · rw [Bool.not_eq_true] at hd
    rw [isTopLevelDirectory, hd]
    simp

/-- Among top-level directories, a leading run of the same path of smaller
or equal length is equal. -/
theorem startsWith_topLevelDir_le (f d1 d2 : PathEntry)
    (h1 : isTopLevelDirectory d1 = true) (h2 : isTopLevelDirectory d2 = true)
    (hp1 : startsWith f d1 = true) (hp2 : startsWith f d2 = true)
    (hle : d1.length ≤ d2.length) : d1 = d2 := by
  obtain ⟨b1, rfl, hb1⟩ := topLevelDirectory_shape d1 h1
  obtain ⟨b2, rfl, hb2⟩ := topLevelDirectory_shape d2 h2
  obtain ⟨t1, rfl⟩ := (startsWith_iff f _).mp hp1
  obtain ⟨t2, he⟩ := (startsWith_iff _ _).mp hp2
  have htake : (b1 ++ [sep] : PathEntry) =
      List.take (b1 ++ [sep]).length ((b2 ++ [sep]) ++ t2) := by
    rw [← he, List.take_left]
  rw [List.take_append_eq_append_take,
    Nat.sub_eq_zero_of_le hle, List.take_zero, List.append_nil] at htake
  by_cases hkeq : (b1 ++ [sep]).length = (b2 ++ [sep]).length
  · rw [hkeq, List.take_length] at htake
    exact htake
  · exfalso
    have hlen1 : (b1 ++ [sep]).length = b1.length + 1 := by simp
    have hlen2 : (b2 ++ [sep]).length = b2.length + 1 := by simp
    have hkb : (b1 ++ [sep]).length ≤ b2.length := by omega
    rw [List.take_append_eq_append_take,
      Nat.sub_eq_zero_of_le hkb, List.take_zero, List.append_nil] at htake
    have hsepmem : sep ∈ List.take (b1 ++ [sep]).length b2 := by
      rw [← htake]
      exact List.mem_append_right b1 (List.mem_singleton_self sep)
    exact hb2 (List.take_subset _ b2 hsepmem)

/-- At most one top-level directory entry is a leading run of any given
path. -/
theorem startsWith_topLevelDir_unique (f d1 d2 : PathEntry)
    (h1 : isTopLevelDirectory d1 = true) (h2 : isTopLevelDirectory d2 = true)
    (hp1 : startsWith f d1 = true) (hp2 : startsWith f d2 = true) : d1 = d2 := by
  rcases Nat.le_total d1.length d2.length with hle | hle
  · exact startsWith_topLevelDir_le f d1 d2 h1 h2 hp1 hp2 hle
  · exact (startsWith_topLevelDir_le f d2 d1 h2 h1 hp2 hp1 hle).symm

/-- When every candidate is a top-level directory, `find?` returns the (by
uniqueness: the only) matching folder, wherever it sits in the list. -/
theorem find_startsWith_eq (f : PathEntry) (S : List PathEntry)
    (hS : ∀ x ∈ S, isTopLevelDirectory x = true) (d : PathEntry)
    (hd : d ∈ S) (hpf : startsWith f d = true) :
    S.find? (fun folder => startsWith f folder) = some d := by
  induction S with
  | nil => cases hd
  | cons x xs ih =>
    by_cases hx : startsWith f x = true
    · rw [List.find?_cons_of_pos _ hx]
      rw [startsWith_topLevelDir_unique f x d (hS x (List.mem_cons_self x xs))
        (hS d hd) hx hpf]
    · have hxd : d ≠ x := fun hh => hx (hh ▸ hpf)
      rw [List.find?_cons_of_neg _ hx]
      refine ih (fun y hy => hS y (List.mem_cons_of_mem x hy)) ?_
      rcases List.mem_cons.mp hd with h | h
      · exact absurd h hxd
      · exact h

/-- Every BAIN folder is a top-level directory. -/
theorem mem_getBainFolders_topLevelDir (files : List PathEntry) (d : PathEntry)
    (hd : d ∈ getBainFolders files) : isTopLevelDirectory d = true := by
  rw [getBainFolders] at hd
  have := (List.mem_filter.mp hd).2
  exact (Bool.and_eq_true _ _).mp this |>.1

/- === Claim theorems === -/

/-- Claim C1: for every archive listing and gameId, `testSupportedContent`
always resolves (modelled as a total, deterministic, pure function) with
`supported` true exactly when the gameId equals the fixed target-game
identifier "morrowind" and the listing has at least one BAIN folder, and
with `requiredFiles` the empty sequence. -/
theorem bain_C1 (L : List PathEntry) (g : String) :
    ((testSupportedContent L g).supported = true ↔
      (g = "morrowind" ∧ getBainFolders L ≠ [])) ∧
    (testSupportedContent L g).requiredFiles = [] := by
  constructor
  · rw [testSupportedContent]
    simp [GAME_ID, List.length_pos]
  · rfl

/-- Claim C7: for every path entry, `isDirectory` and `isFile` are exhaustive
and complementary, and `isDirectory` holds exactly when the entry ends with
the separator character. -/
theorem bain_C7 (p : PathEntry) :
    isDirectory p = !(isFile p) ∧ (isDirectory p = true ↔ endsWith p sep = true) := by
  constructor
  · rw [isDirectory, isFile, Bool.not_not]
  · rw [isDirectory]

/-- Claim C4: `getBainFolders` is the ordered subsequence of the listing
(preserving order and duplicates) of exactly the entries that are
directories, top-level, and whose basename matches the BAIN pattern of two
ASCII digits followed by a space (`/^\d{2}\s/`). -/
theorem bain_C4 (L : List PathEntry) :
    getBainFolders L = L.filter bainFolderSpec ∧ (getBainFolders L).Sublist L := by
  constructor
  · rw [getBainFolders, funext bainPred_eq]
  · exact List.filter_sublist L

/-- Claim C5 counterexample: on the non-directory entry "a/b" the code's
`isTopLevel` is true (its single separator makes first and last index
coincide), while the spec's "no separator before its final character"
phrasing is false — the two do not agree on every entry. -/
theorem bain_C5_counterexample :
    ¬ (isTopLevel ("a/b".data) = noSepBeforeFinal ("a/b".data)) := by
  decide

/-- Claim C5 (amended): `isTopLevel` is true exactly when the entry contains
at most one separator occurrence; for a directory that means exactly one
separator, located at the end; and the "no separator before the final
character" phrasing agrees with the code on directory entries (it fails on
non-directory entries with one separator, such as "a/b"). -/
theorem bain_C5_amended (f : PathEntry) :
    (isTopLevel f = true ↔ f.count sep ≤ 1) ∧
    (isDirectory f = true → isTopLevel f = true →
      f.count sep = 1 ∧ endsWith f sep = true) ∧
    (isDirectory f = true → isTopLevel f = noSepBeforeFinal f) := by
  refine ⟨isTopLevel_iff_count f, ?_, ?_⟩
  · intro hd ht
    have hts : isTopLevelDirectory f = true := by
      rw [isTopLevelDirectory, hd, ht]
      rfl
    obtain ⟨b, rfl, hb⟩ := topLevelDirectory_shape f hts
    constructor
    · rw [List.count_append, List.count_eq_zero.mpr hb]
      simp
    · rwa [isDirectory] at hd
  · intro hd
    obtain ⟨init, rfl⟩ := (endsWith_iff f sep).mp (by rwa [isDirectory] at hd)
    rw [Bool.eq_iff_iff, isTopLevel_iff_count, noSepBeforeFinal,
      List.dropLast_concat, Bool.not_eq_true', decide_eq_false_iff_not,
      List.count_append, ← List.count_eq_zero (a := sep) (l := init)]
    simp

/-- Witness for the amended claim C5 at the concrete entry "00 Core/". -/
theorem bain_C5_amended_witness :
    ("00 Core/".data.count sep ≤ 1) ∧ ("00 Core/".data.count sep = 1) ∧
    isTopLevel ("00 Core/".data) = noSepBeforeFinal ("00 Core/".data) := by
  have h := bain_C5_amended ("00 Core/".data)
  exact ⟨h.1.mp (by decide), (h.2.1 (by decide) (by decide)).1, h.2.2 (by decide)⟩

/-- Claim C6 counterexample: the file "00 Core/00 Core/a.esp" lies under the
selected BAIN folder "00 Core/", yet its relative destination
"00 Core/a.esp" does start with the folder's basename segment. -/
theorem bain_C6_counterexample :
    isFile ("00 Core/00 Core/a.esp".data) = true ∧
    isTopLevelDirectory ("00 Core/".data) = true ∧
    startsWith ("00 Core/00 Core/a.esp".data) ("00 Core/".data) = true ∧
    startsWith (getRelativePath ("00 Core/00 Core/a.esp".data) ["00 Core/".data])
      (basename ("00 Core/".data) ++ [sep]) = true := by
  decide

/-- Claim C6 (amended): for a file whose matched selected folder is `d`, the
destination is the file path with the leading `d` removed (so `d` followed by
the destination reconstructs the file path); the destination starts with
`d`'s basename segment only when the remainder after `d` itself starts with
that segment again (a nested identically-named folder, as in
"00 Core/00 Core/a.esp"); absent such nesting it never does. -/
theorem bain_C6_amended (f : PathEntry) (S : List PathEntry) (d : PathEntry)
    (hfind : S.find? (fun folder => startsWith f folder) = some d) :
    getRelativePath f S = f.drop d.length ∧
    d ++ getRelativePath f S = f ∧
    (startsWith (f.drop d.length) (basename d ++ [sep]) = false →
      startsWith (getRelativePath f S) (basename d ++ [sep]) = false) := by
  have hsw : startsWith f d = true := List.find?_some hfind
  obtain ⟨t, rfl⟩ := (startsWith_iff f d).mp hsw
  have h1 : getRelativePath (d ++ t) S = (d ++ t).drop d.length := by
    rw [getRelativePath, hfind]
    rfl
  refine ⟨h1, ?_, fun h => h1 ▸ h⟩
  rw [h1, List.drop_left]

/-- Witness for the amended claim C6 at the spec's scenario: the file
"00 Core/plugin.esp" under the selected folder "00 Core/". -/
theorem bain_C6_amended_witness :
    getRelativePath ("00 Core/plugin.esp".data) ["00 Core/".data] =
      ("00 Core/plugin.esp".data).drop ("00 Core/".data).length ∧
    "00 Core/".data ++ getRelativePath ("00 Core/plugin.esp".data) ["00 Core/".data] =
      "00 Core/plugin.esp".data ∧
    (startsWith (("00 Core/plugin.esp".data).drop ("00 Core/".data).length)
        (basename ("00 Core/".data) ++ [sep]) = false →
      startsWith (getRelativePath ("00 Core/plugin.esp".data) ["00 Core/".data])
        (basename ("00 Core/".data) ++ [sep]) = false) :=
  bain_C6_amended ("00 Core/plugin.esp".data) ["00 Core/".data] ("00 Core/".data)
    (by decide)

/-- Mapping a projection over an index-aware map. -/
theorem mapWithIndexFrom_map (g : β → γ) (f : Nat → α → β) (n : Nat) (l : List α) :
    (mapWithIndexFrom f n l).map g = mapWithIndexFrom (fun i a => g (f i a)) n l := by
  induction l generalizing n with
  | nil => rfl
  | cons a as ih => simp [mapWithIndexFrom, ih]

/-- An index-aware map that ignores the index is a plain map. -/
theorem mapWithIndexFrom_const (g : α → β) (n : Nat) (l : List α) :
    mapWithIndexFrom (fun _ a => g a) n l = l.map g := by
  induction l generalizing n with
  | nil => rfl
  | cons a as ih => simp [mapWithIndexFrom, ih]

/-- An index-aware map preserves length. -/
theorem mapWithIndexFrom_length (f : Nat → α → β) (n : Nat) (l : List α) :
    (mapWithIndexFrom f n l).length = l.length := by
  induction l generalizing n with
  | nil => rfl
  | cons a as ih => simp [mapWithIndexFrom, ih]

/-- Elements of an index-aware map. -/
theorem mapWithIndexFrom_get (f : Nat → α → β) (n : Nat) (l : List α) (i : Nat)
    (h : i < (mapWithIndexFrom f n l).length) :
    (mapWithIndexFrom f n l).get ⟨i, h⟩ =
      f (n + i) (l.get ⟨i, by rwa [mapWithIndexFrom_length f n l] at h⟩) := by
  induction l generalizing n i with
  | nil => simp [mapWithIndexFrom] at h
  | cons a as ih =>
    cases i with
    | zero => simp [mapWithIndexFrom]
    | succ j =>
      have hj : j < (mapWithIndexFrom f (n + 1) as).length := by
        have := h
        simp [mapWithIndexFrom] at this
        simpa [mapWithIndexFrom_length]
      have := ih (n + 1) j hj
      simp only [mapWithIndexFrom, List.get_cons_succ]
      rw [this]
      congr 1
      omega

/-- Claim C9: among pairwise-distinct top-level directory entries (such as
any set of BAIN folders), at most one is a leading run of a given file path;
hence `getRelativePath` resolves to that unique containing folder no matter
where it sits in the selection order. -/
theorem bain_C9 (f : PathEntry) (S : List PathEntry) (d : PathEntry)
    (hS : ∀ x ∈ S, isTopLevelDirectory x = true)
    (hd : d ∈ S) (hpf : startsWith f d = true) :
    (∀ d2 ∈ S, startsWith f d2 = true → d2 = d) ∧
    S.find? (fun folder => startsWith f folder) = some d ∧
    getRelativePath f S = pathRelative d f := by
  refine ⟨?_, find_startsWith_eq f S hS d hd hpf, ?_⟩
  · intro d2 hd2 hp2
    exact startsWith_topLevelDir_unique f d2 d (hS d2 hd2) (hS d hd) hp2 hpf
  · rw [getRelativePath, find_startsWith_eq f S hS d hd hpf]

/-- Witness for claim C9: "00 Core/" is found as the containing folder of
"00 Core/plugin.esp" even when listed after "01 Optional/". -/
theorem bain_C9_witness :
    (∀ d2 ∈ (["01 Optional/".data, "00 Core/".data] : List PathEntry),
      startsWith ("00 Core/plugin.esp".data) d2 = true → d2 = "00 Core/".data) ∧
    (["01 Optional/".data, "00 Core/".data] : List PathEntry).find?
      (fun folder => startsWith ("00 Core/plugin.esp".data) folder) =
        some ("00 Core/".data) ∧
    getRelativePath ("00 Core/plugin.esp".data) ["01 Optional/".data, "00 Core/".data] =
      pathRelative ("00 Core/".data) ("00 Core/plugin.esp".data) :=
  bain_C9 ("00 Core/plugin.esp".data) ["01 Optional/".data, "00 Core/".data]
    ("00 Core/".data) (by decide) (by decide) (by decide)

/-- Claim C3: the dialog step throws the user-cancellation error exactly when
the chosen action is "Cancel" or no checkbox value is true (so any returned
selection is non-empty); `installContent` catches that error — and any host
dialog failure alike — at its single catch boundary, logs it at error level,
and returns the empty result instead of letting any exception escape (the
model of `installContent` is a total function: nothing propagates). -/
theorem bain_C3 (bainFolders : List PathEntry) :
    (∀ result : DialogResult,
      showFolderSelectionDialog bainFolders (DialogOutcome.response result) =
        Except.error (InstallError.userCanceled ("No folders selected or action canceled.")) ↔
      (result.action = "Cancel" ∨
        (result.input.map (fun kv => kv.2)).any (fun v => v) = false)) ∧
    (∀ outcome sel, showFolderSelectionDialog bainFolders outcome = Except.ok sel →
      sel ≠ []) ∧
    (∀ (files : List PathEntry) (respond : DialogRequest → DialogOutcome)
      (e : InstallError),
      showFolderSelectionDialog (getBainFolders files)
          (respond (showFolderSelectionDialogRequest (getBainFolders files))) =
        Except.error e →
      (installContent files respond).1 = InstallOutput.aborted ∧
      ("error", "Dialog error: " ++ e.message) ∈ (installContent files respond).2) := by
  refine ⟨?_, ?_, ?_⟩
  · intro result
    rw [showFolderSelectionDialog]
    by_cases hc : (result.action == "Cancel" ||
        !((result.input.map (fun kv => kv.2)).any (fun v => v))) = true
    · rw [if_pos hc]
      simp only [Bool.or_eq_true, beq_iff_eq, Bool.not_eq_true'] at hc
      exact ⟨fun _ => hc, fun _ => rfl⟩
    · rw [if_neg hc]
      simp only [Bool.or_eq_true, beq_iff_eq, Bool.not_eq_true'] at hc
      push_neg at hc
      constructor
      · intro h
        exact Except.noConfusion h
      · intro h
        rcases h with h | h
        · exact absurd h hc.1
        · exact absurd h hc.2
  · intro outcome sel h
    cases outcome with
    | failure msg =>
      rw [showFolderSelectionDialog] at h
      exact Except.noConfusion h
    | response result =>
      rw [showFolderSelectionDialog] at h
      by_cases hc : (result.action == "Cancel" ||
          !((result.input.map (fun kv => kv.2)).any (fun v => v))) = true
      · rw [if_pos hc] at h
        exact Except.noConfusion h
      · rw [if_neg hc] at h
        injection h with hsel
        subst hsel
        simp only [Bool.or_eq_true, Bool.not_eq_true'] at hc
        push_neg at hc
        have hany : (result.input.map (fun kv => kv.2)).any (fun v => v) = true := by
          cases hval : (result.input.map (fun kv => kv.2)).any (fun v => v) with
          | false => exact absurd hval hc.2
          | true => rfl
        rw [List.any_eq_true] at hany
        obtain ⟨v, hvmem, hv⟩ := hany
        rw [List.mem_map] at hvmem
        obtain ⟨kv, hkv, rfl⟩ := hvmem
        have hmem : kv ∈ result.input.filter (fun kv => kv.2) :=
          List.mem_filter.mpr ⟨hkv, hv⟩
        exact List.ne_nil_of_mem (List.mem_map_of_mem (fun kv => kv.1) hmem)
  · intro files respond e h
    have hred : installContent files respond =
        (InstallOutput.aborted,
         [("debug", "BAIN folders: " ++ joinPaths (getBainFolders files)),
          ("error", "Dialog error: " ++ e.message)]) := by
      rw [installContent]
      simp only [h]
    rw [hred]
    exact ⟨rfl, by simp⟩

/-- Witness for claim C3: a host dialog rejection is caught, logged at error
level, and turned into the empty result. -/
theorem bain_C3_witness :
    (installContent ["00 Core/".data, "00 Core/plugin.esp".data]
        (fun _ => DialogOutcome.failure ("dialog failed"))).1 = InstallOutput.aborted ∧
    ("error", "Dialog error: " ++ (InstallError.hostFailure ("dialog failed")).message) ∈
      (installContent ["00 Core/".data, "00 Core/plugin.esp".data]
        (fun _ => DialogOutcome.failure ("dialog failed"))).2 :=
  (bain_C3 []).2.2 ["00 Core/".data, "00 Core/plugin.esp".data]
    (fun _ => DialogOutcome.failure ("dialog failed"))
    (InstallError.hostFailure ("dialog failed")) rfl

/-- Claim C10: when the listing has no BAIN folders, the dialog still goes
out with zero checkboxes, so a host honouring the request (one value per
checkbox) can never report a ticked box; whatever action the user picks —
and even if the dialog rejects — the cancellation branch fires and
`installContent` returns the empty result. -/
theorem bain_C10 (files : List PathEntry) (respond : DialogRequest → DialogOutcome)
    (hempty : getBainFolders files = [])
    (hcontract : ∀ result : DialogResult,
      respond (showFolderSelectionDialogRequest (getBainFolders files)) =
        DialogOutcome.response result →
      result.input.map (fun kv => kv.1) =
        (showFolderSelectionDialogRequest (getBainFolders files)).checkboxes.map
          Checkbox.id) :
    (installContent files respond).1 = InstallOutput.aborted := by
  cases hout : respond (showFolderSelectionDialogRequest (getBainFolders files)) with
  | failure msg =>
    have hred : installContent files respond =
        (InstallOutput.aborted,
         [("debug", "BAIN folders: " ++ joinPaths (getBainFolders files)),
          ("error", "Dialog error: " ++
            (InstallError.hostFailure msg).message)]) := by
      rw [installContent]
      simp only [hout, showFolderSelectionDialog]
    rw [hred]
  | response result =>
    have hids := hcontract result hout
    rw [hempty] at hids
    have hnil : (showFolderSelectionDialogRequest []).checkboxes.map Checkbox.id = [] := rfl
    rw [hnil] at hids
    have hinput : result.input = [] := List.map_eq_nil_iff.mp hids
    have hdlg : showFolderSelectionDialog (getBainFolders files)
        (DialogOutcome.response result) =
        Except.error (InstallError.userCanceled ("No folders selected or action canceled.")) := by
      rw [showFolderSelectionDialog, if_pos]
      rw [hinput]
      simp
    have hred : installContent files respond =
        (InstallOutput.aborted,
         [("debug", "BAIN folders: " ++ joinPaths (getBainFolders files)),
          ("error", "Dialog error: " ++
            (InstallError.userCanceled ("No folders selected or action canceled.")).message)]) := by
      rw [installContent]
      simp only [hout, hdlg]
    rw [hred]

/-- Witness for claim C10 on the spec's unsupported listing, with the user
confirming (Continue) on the empty checkbox list. -/
theorem bain_C10_witness :
    (installContent ["readme.txt".data, "textures/".data]
        (fun _ => DialogOutcome.response { action := "Continue", input := [] })).1 =
      InstallOutput.aborted :=
  bain_C10 ["readme.txt".data, "textures/".data]
    (fun _ => DialogOutcome.response { action := "Continue", input := [] })
    (by decide)
    (by
      intro result h
      cases h
      rfl)

/-- Claim C2: with a non-cancelled dialog response whose ticked ids form the
selection, `installContent` emits exactly one copy instruction per listing
entry that is a file starting with a selected folder, in the listing's
order, with source the file path and destination the path made relative to
its (unique) containing selected folder. -/
theorem bain_C2 (files : List PathEntry) (respond : DialogRequest → DialogOutcome)
    (result : DialogResult) (S : List PathEntry)
    (hresp : respond (showFolderSelectionDialogRequest (getBainFolders files)) =
      DialogOutcome.response result)
    (hact : ¬ result.action = "Cancel")
    (hany : (result.input.map (fun kv => kv.2)).any (fun v => v) = true)
    (hS : S = (result.input.filter (fun kv => kv.2)).map (fun kv => kv.1))
    (hkeys : ∀ kv ∈ result.input, kv.1 ∈ getBainFolders files) :
    (installContent files respond).1 = InstallOutput.withInstructions
      ((files.filter (fun file => isFile file && isFileInSelectedFolder file S)).map
        (fun file => { type := "copy", source := file,
                       destination := getRelativePath file S })) ∧
    (∀ file d, d ∈ S → startsWith file d = true →
      getRelativePath file S = pathRelative d file) := by
  have hok : showFolderSelectionDialog (getBainFolders files)
      (DialogOutcome.response result) = Except.ok S := by
    rw [showFolderSelectionDialog, if_neg, hS]
    simp only [Bool.or_eq_true, beq_iff_eq, Bool.not_eq_true']
    push_neg
    exact ⟨hact, by simp [hany]⟩
  constructor
  · rw [installContent]
    simp only [hresp, hok]
  · intro file d hdS hsw
    have hStop : ∀ x ∈ S, isTopLevelDirectory x = true := by
      intro x hx
      rw [hS] at hx
      obtain ⟨kv, hkv, rfl⟩ := List.mem_map.mp hx
      exact mem_getBainFolders_topLevelDir files kv.1 (hkeys kv (List.mem_filter.mp hkv).1)
    rw [getRelativePath, find_startsWith_eq file S hStop d hdS hsw]

/-- Witness for claim C2: the spec's Scenario 4 — with only "00 Core"
selected, the instructions are exactly
`[{source: "00 Core/plugin.esp", destination: "plugin.esp"}]`. -/
theorem bain_C2_witness :
    (installContent
        ["00 Core/".data, "00 Core/plugin.esp".data,
         "01 Optional/".data, "01 Optional/readme.txt".data]
        (fun _ => DialogOutcome.response
          { action := "Continue",
            input := [("00 Core/".data, true), ("01 Optional/".data, false)] })).1 =
      InstallOutput.withInstructions
        [{ type := "copy", source := "00 Core/plugin.esp".data,
           destination := "plugin.esp".data }] := by
  have h := bain_C2
    ["00 Core/".data, "00 Core/plugin.esp".data,
     "01 Optional/".data, "01 Optional/readme.txt".data]
    (fun _ => DialogOutcome.response
      { action := "Continue",
        input := [("00 Core/".data, true), ("01 Optional/".data, false)] })
    { action := "Continue",
      input := [("00 Core/".data, true), ("01 Optional/".data, false)] }
    ["00 Core/".data]
    rfl (by decide) (by decide) (by decide) (by decide)
  exact h.1.trans (by decide)

/-- Claim C8: the dialog request carries one checkbox per BAIN folder in
order — id the folder's full path, label its basename, only the first one
pre-checked — offers exactly the actions Cancel and Continue with Continue
the default, and a non-cancelled completion returns exactly the ticked
checkbox identifiers in the order the host listed them. -/
theorem bain_C8 (bainFolders : List PathEntry) :
    (showFolderSelectionDialogRequest bainFolders).checkboxes.map Checkbox.id =
      bainFolders ∧
    (showFolderSelectionDialogRequest bainFolders).checkboxes.map Checkbox.text =
      bainFolders.map basename ∧
    (∀ i (h : i < (showFolderSelectionDialogRequest bainFolders).checkboxes.length),
      ((showFolderSelectionDialogRequest bainFolders).checkboxes.get ⟨i, h⟩).value =
        decide (i = 0)) ∧
    (showFolderSelectionDialogRequest bainFolders).actions =
      [{ label := "Cancel", isDefault := false },
       { label := "Continue", isDefault := true }] ∧
    (∀ result : DialogResult, ¬ result.action = "Cancel" →
      (result.input.map (fun kv => kv.2)).any (fun v => v) = true →
      showFolderSelectionDialog bainFolders (DialogOutcome.response result) =
        Except.ok ((result.input.filter (fun kv => kv.2)).map (fun kv => kv.1))) := by
  refine ⟨?_, ?_, ?_, rfl, ?_⟩
  · show (mapWithIndexFrom _ 0 bainFolders).map Checkbox.id = bainFolders
    rw [mapWithIndexFrom_map]
    exact (mapWithIndexFrom_const (fun a => a) 0 bainFolders).trans (List.map_id bainFolders)
  · show (mapWithIndexFrom _ 0 bainFolders).map Checkbox.text = bainFolders.map basename
    rw [mapWithIndexFrom_map]
    exact mapWithIndexFrom_const basename 0 bainFolders
  · intro i h
    show ((mapWithIndexFrom
        (fun index folder =>
          ({ id := folder, text := basename folder, value := index == 0 } : Checkbox))
        0 bainFolders).get ⟨i, h⟩).value = decide (i = 0)
    rw [mapWithIndexFrom_get]
    show ((0 + i : Nat) == 0) = decide (i = 0)
    rw [Nat.zero_add, Bool.eq_iff_iff]
    simp
  · intro result hact hany
    rw [showFolderSelectionDialog, if_neg]
    simp only [Bool.or_eq_true, beq_iff_eq, Bool.not_eq_true']
    push_neg
    exact ⟨hact, by simp [hany]⟩

/-- Witness for claim C8 on the spec's two-folder listing, with the host
returning Continue and only the first box ticked. -/
theorem bain_C8_witness :
    (showFolderSelectionDialogRequest
        ["00 Core/".data, "01 Optional/".data]).checkboxes.map Checkbox.id =
      ["00 Core/".data, "01 Optional/".data] ∧
    (showFolderSelectionDialogRequest
        ["00 Core/".data, "01 Optional/".data]).actions =
      [{ label := "Cancel", isDefault := false },
       { label := "Continue", isDefault := true }] ∧
    showFolderSelectionDialog ["00 Core/".data, "01 Optional/".data]
        (DialogOutcome.response
          { action := "Continue",
            input := [("00 Core/".data, true), ("01 Optional/".data, false)] }) =
      Except.ok [("00 Core/".data)] := by
  have h := bain_C8 ["00 Core/".data, "01 Optional/".data]
  refine ⟨h.1, h.2.2.2.1, ?_⟩
  have h5 := h.2.2.2.2
    { action := "Continue",
      input := [("00 Core/".data, true), ("01 Optional/".data, false)] }
    (by decide) (by decide)
  exact h5.trans (congrArg Except.ok (by decide))
